import Mathlib

/-!
Verification of the subscription detector of `src/app.py`
(`detect_subscriptions`, lines 25-87).

The detector is embedded shallowly:

* a pandas DataFrame row becomes a `RawTransaction`;
* the `date` column is a `DateField`: either a parseable date string
  (carried together with the integer day number it denotes), an
  unparseable string, or an already-parsed timestamp — `pd.to_datetime`
  (line 34) becomes `to_datetime`;
* the `amount` column is an `AmountField`: either a numeric value
  (modelled exactly, as a rational) or a non-numeric string; Python's
  `sum` over such a column (line 68) becomes `pySum`, which raises
  `typeError` on the first non-numeric entry, exactly as `0 + str` does;
* `df.sort_values('date')` (line 35) and `sorted(transactions, key=date)`
  (line 57) are stable sorts by date; they are embedded as
  `List.insertionSort`, which is stable for the non-strict order used;
* `row['description'].split()` (line 42) becomes `pySplit`, splitting on
  runs of whitespace; taking `[0]` of an empty split raises `indexError`,
  as in Python;
* Python's `int()` on a non-negative float (line 79) truncates toward
  zero; it is embedded as `pyInt` on the exact rational value;
* the currency formatting `f"${x:.2f}"` of lines 78 and 83 is display
  glue; the embedded record keeps the exact numeric values that are
  formatted there (the spec's data model likewise retains the unrounded
  numeric value).

A run that raises an exception in Python is an `Except.error`; the
distinguishable exception sites are the members of `DetectError`.
-/

/-- The `date` cell of an input row. `raw d s` is a parseable date string
`s` denoting day number `d`; `bad s` is an unparseable string; `ts d` is
an already-parsed timestamp. -/
inductive DateField where
  | raw (d : ℤ) (s : String)
  | bad (s : String)
  | ts (d : ℤ)
  deriving DecidableEq, Repr

/-- The `amount` cell of an input row: numeric, or a non-numeric string. -/
inductive AmountField where
  | num (q : ℚ)
  | str (s : String)
  deriving DecidableEq, Repr

/-- One row of the caller's DataFrame. -/
structure RawTransaction where
  date : DateField
  description : String
  amount : AmountField
  category : String
  deriving DecidableEq, Repr

/-- A row after `df['date'] = pd.to_datetime(df['date'])` (line 34). -/
structure PTxn where
  date : ℤ
  description : String
  amount : AmountField
  category : String
  deriving DecidableEq, Repr

/-- The per-merchant dict built at lines 43-48. -/
structure Txn where
  date : ℤ
  amount : AmountField
  full_description : String
  category : String
  deriving DecidableEq, Repr

/-- The exceptions `detect_subscriptions` can raise: a date-parsing error
from `pd.to_datetime` (carrying the offending value, line 34), the
IndexError of `.split()[0]` on an empty split (line 42), and the
TypeError of summing a non-numeric amount (line 68). -/
inductive DetectError where
  | dateParseError (s : String)
  | indexError
  | typeError
  deriving DecidableEq, Repr

/-- The dict appended at lines 76-85, with the exact numeric values that
the source formats into its `Monthly Cost` / `Annual Cost` strings. -/
structure DetectedSubscription where
  Service : String
  Monthly_Cost : ℚ
  Frequency : ℤ
  Category : String
  Times_Charged : ℕ
  Last_Charge : ℤ
  Annual_Cost : ℚ
  cost_numeric : ℚ
  deriving DecidableEq, Repr

/-- `pd.to_datetime` on one cell: `none` when parsing would raise. -/
def to_datetime : DateField → Option ℤ
  | .raw d _ => some d
  | .ts d => some d
  | .bad _ => none

/-- The string reported by the date-parsing exception. -/
def dateRawString : DateField → String
  | .raw _ s => s
  | .bad s => s
  | .ts _ => ""

/-- `df['date'] = pd.to_datetime(df['date'])` (line 34) over the whole
column: fails at the first unparseable cell, naming its value; otherwise
yields the column of parsed rows. -/
def to_datetime_col : List RawTransaction → Except DetectError (List PTxn)
  | [] => .ok []
  | t :: rest =>
    match to_datetime t.date with
    | none => .error (.dateParseError (dateRawString t.date))
    | some d =>
      match to_datetime_col rest with
      | .error e => .error e
      | .ok ps => .ok (⟨d, t.description, t.amount, t.category⟩ :: ps)

/-- Date order on parsed rows, used by `df.sort_values('date')`. -/
def PTxn.le (a b : PTxn) : Prop := a.date ≤ b.date

instance : DecidableRel PTxn.le := fun a b => Int.decLe a.date b.date

instance : IsTotal PTxn PTxn.le := ⟨fun a b => Int.le_total a.date b.date⟩

instance : IsTrans PTxn PTxn.le := ⟨fun _ _ _ => Int.le_trans⟩

/-- `df = df.sort_values('date')` (line 35): a stable sort by date. -/
def sort_values (l : List PTxn) : List PTxn := List.insertionSort PTxn.le l

/-- Helper for `pySplit`: accumulates the current token (reversed) and
the finished tokens (reversed). -/
def tokensAux (cur : List Char) (acc : List String) : List Char → List String
  | [] => if cur = [] then acc.reverse else (String.mk cur.reverse :: acc).reverse
  | c :: cs =>
    if c.isWhitespace then
      if cur = [] then tokensAux [] acc cs
      else tokensAux [] (String.mk cur.reverse :: acc) cs
    else tokensAux (c :: cur) acc cs

/-- Python's `str.split()` with no argument: split on runs of whitespace,
dropping empty tokens (so `"".split() == []`). Used at line 42. -/
def pySplit (s : String) : List String := tokensAux [] [] s.toList

/-- Appends a transaction to the group of `key`, preserving first-seen
key order — the behaviour of `defaultdict(list)` at lines 38-48. -/
def insertGroup (key : String) (t : Txn) : List (String × List Txn) → List (String × List Txn)
  | [] => [(key, [t])]
  | (k, ts) :: rest =>
    if k = key then (k, ts ++ [t]) :: rest
    else (k, ts) :: insertGroup key t rest

/-- The dict of lines 43-48 for one row. -/
def rowTxn (r : PTxn) : Txn := ⟨r.date, r.amount, r.description, r.category⟩

/-- The grouping loop of lines 40-48: iterate the (sorted) rows in order,
key each row by the first whitespace token of its description, and append
it to that key's group. `row['description'].split()[0]` raises an
IndexError when the split is empty. -/
def merchant_groups : List PTxn → List (String × List Txn) → Except DetectError (List (String × List Txn))
  | [], acc => .ok acc
  | r :: rest, acc =>
    match pySplit r.description with
    | [] => .error .indexError
    | key :: _ => merchant_groups rest (insertGroup key (rowTxn r) acc)

/-- Date order on group members, used by `sorted(transactions, key=...)`. -/
def Txn.le (a b : Txn) : Prop := a.date ≤ b.date

instance : DecidableRel Txn.le := fun a b => Int.decLe a.date b.date

instance : IsTotal Txn Txn.le := ⟨fun a b => Int.le_total a.date b.date⟩

instance : IsTrans Txn Txn.le := ⟨fun _ _ _ => Int.le_trans⟩

/-- `transactions = sorted(transactions, key=lambda x: x['date'])`
(line 57): Python's stable sort by date. -/
def sortTxns (l : List Txn) : List Txn := List.insertionSort Txn.le l

/-- `amounts = [t['amount'] for t in transactions]` (line 61). -/
def amountsOf (transactions : List Txn) : List AmountField :=
  transactions.map (·.amount)

/-- The interval loop of lines 63-65: day differences of consecutive
transactions. -/
def intervalsOf : List Txn → List ℤ
  | [] => []
  | [_] => []
  | a :: b :: rest => (b.date - a.date) :: intervalsOf (b :: rest)

/-- Python's `sum` over the amount column (line 68): a left-to-right fold
from `0` that raises a TypeError at the first non-numeric amount. The
fold is written tail-first; over exact rationals the value agrees with
Python's left fold, and the error behaviour (fails iff some entry is a
string, always with a TypeError) also agrees. -/
def pySum : List AmountField → Except DetectError ℚ
  | [] => .ok 0
  | .str _ :: _ => .error .typeError
  | .num q :: rest =>
    match pySum rest with
    | .error e => .error e
    | .ok s => .ok (q + s)

/-- Python's `int()` on a float: truncation toward zero, taken on the
exact rational value (line 79). -/
def pyInt (q : ℚ) : ℤ := if 0 ≤ q then ⌊q⌋ else ⌈q⌉

/-- Default used for `headD`/`getLastD`; never reached, because the
group-size guard ensures the sorted list is non-empty. -/
def default_txn : Txn := ⟨0, .num 0, "", ""⟩

/-- `amount_variance` (line 69): all amounts within 1.00 of the average.
On a non-numeric amount Python would raise inside `abs`, but line 68 has
already raised by then, so the `str` branch is unreachable in context. -/
def amount_variance (amounts : List AmountField) (avg_amount : ℚ) : Bool :=
  amounts.all fun a =>
    match a with
    | .num amt => decide (|amt - avg_amount| ≤ 1)
    | .str _ => false

/-- `interval_consistent` (line 73): all intervals within [25, 35]. -/
def interval_consistent (intervals : List ℤ) : Bool :=
  intervals.all fun i => decide (25 ≤ i) && decide (i ≤ 35)

/-- The dict appended at lines 76-85, built from the date-sorted group
and the two averages. -/
def mkSubscription (transactions : List Txn) (avg_amount avg_interval : ℚ) :
    DetectedSubscription :=
  { Service := (transactions.headD default_txn).full_description
    Monthly_Cost := avg_amount
    Frequency := pyInt avg_interval
    Category := (transactions.headD default_txn).category
    Times_Charged := transactions.length
    Last_Charge := (transactions.getLastD default_txn).date
    Annual_Cost := avg_amount * 12
    cost_numeric := avg_amount }

/-- The body of the per-merchant loop, lines 53-85: skip groups with
fewer than 2 transactions, sort the group by date, collect amounts and
consecutive intervals, average the amounts (raising a TypeError if one
is non-numeric), test amount stability and interval regularity, and
emit the subscription dict when both hold. -/
def processGroup (group : List Txn) : Except DetectError (Option DetectedSubscription) :=
  if group.length < 2 then .ok none
  else
    match pySum (amountsOf (sortTxns group)) with
    | .error e => .error e
    | .ok total =>
      let transactions := sortTxns group
      let intervals := intervalsOf transactions
      let avg_amount : ℚ := total / ((amountsOf transactions).length : ℚ)
      if intervals = [] then .ok none
      else
        let avg_interval : ℚ := (intervals.map fun i : ℤ => (i : ℚ)).sum / (intervals.length : ℚ)
        if amount_variance (amountsOf transactions) avg_amount && interval_consistent intervals then
          .ok (some (mkSubscription transactions avg_amount avg_interval))
        else .ok none

/-- The loop of lines 52-85 over all merchant groups, in first-seen key
order, collecting the emitted subscriptions; the first exception aborts
the whole run. -/
def processAll : List (String × List Txn) → Except DetectError (List DetectedSubscription)
  | [] => .ok []
  | (_, g) :: rest =>
    match processGroup g with
    | .error e => .error e
    | .ok none => processAll rest
    | .ok (some s) =>
      match processAll rest with
      | .error e => .error e
      | .ok subs => .ok (s :: subs)

/-- The merchant grouping of a whole input: parse the date column, sort
by date, then bucket rows by merchant key (lines 34-48). -/
def merchantGroupsOf (df : List RawTransaction) : Except DetectError (List (String × List Txn)) :=
  match to_datetime_col df with
  | .error e => .error e
  | .ok parsed => merchant_groups (sort_values parsed) []

/-- `detect_subscriptions` (lines 25-87) together with the caller's
DataFrame as it stands after the call. Line 34 assigns the parsed date
column back into the caller's frame in place — so when the whole column
parses, the caller's rows keep their order and all other fields but
their `date` cells now hold timestamps; if some date fails to parse,
`pd.to_datetime` raises before the assignment and the frame is
untouched. Line 35 rebinds `df` to a sorted copy, which does not touch
the caller's frame. -/
def detect_with_frame (df : List RawTransaction) :
    List RawTransaction × Except DetectError (List DetectedSubscription) :=
  match to_datetime_col df with
  | .error e => (df, .error e)
  | .ok parsed =>
    (parsed.map fun p => ⟨.ts p.date, p.description, p.amount, p.category⟩,
     match merchant_groups (sort_values parsed) [] with
     | .error e => .error e
     | .ok groups => processAll groups)

/-- The return value of `detect_subscriptions` (line 87), or the
exception that aborted it. -/
def detect_subscriptions (df : List RawTransaction) : Except DetectError (List DetectedSubscription) :=
  (detect_with_frame df).2

/-- The value of a numeric amount cell (meaningful on numeric cells; the
detector only averages columns proven all-numeric). -/
def amountVal : AmountField → ℚ
  | .num q => q
  | .str _ => 0

/-- The group's mean amount, as the spec states it (§4 step 6). -/
def specMean (g : List Txn) : ℚ :=
  (g.map fun t => amountVal t.amount).sum / (g.length : ℚ)

/-- Amount stability (§4 step 7): every amount within 1.00 of the mean. -/
def specAmountStable (g : List Txn) : Prop :=
  ∀ t ∈ g, |amountVal t.amount - specMean g| ≤ 1

/-- The pairwise day-intervals of the date-sorted group (§4 step 5). -/
def specIntervals (g : List Txn) : List ℤ := intervalsOf (sortTxns g)

/-- Interval regularity (§4 step 8): every interval in [25, 35]. -/
def specIntervalRegular (g : List Txn) : Prop :=
  ∀ i ∈ specIntervals g, 25 ≤ i ∧ i ≤ 35

/-- The mean interval of the date-sorted group (§4 step 9). -/
def specMeanInterval (g : List Txn) : ℚ :=
  ((specIntervals g).map fun i : ℤ => (i : ℚ)).sum / ((specIntervals g).length : ℚ)

instance (g : List Txn) : Decidable (specAmountStable g) := by
  unfold specAmountStable; infer_instance

instance (g : List Txn) : Decidable (specIntervalRegular g) := by
  unfold specIntervalRegular; infer_instance

/-! ## Basic facts about the embedded operations -/

theorem sortTxns_perm (l : List Txn) : (sortTxns l).Perm l :=
  List.perm_insertionSort Txn.le l

theorem sortTxns_sorted (l : List Txn) : List.Sorted Txn.le (sortTxns l) :=
  List.sorted_insertionSort Txn.le l

theorem sortTxns_length (l : List Txn) : (sortTxns l).length = l.length :=
  (sortTxns_perm l).length_eq

theorem sortTxns_mem (l : List Txn) (t : Txn) : t ∈ sortTxns l ↔ t ∈ l :=
  (sortTxns_perm l).mem_iff

theorem amountsOf_length (l : List Txn) : (amountsOf l).length = l.length := by
  simp [amountsOf]

theorem intervalsOf_length : ∀ l : List Txn, (intervalsOf l).length = l.length - 1
  | [] => rfl
  | [_] => rfl
  | a :: b :: rest => by
    simpa [intervalsOf] using intervalsOf_length (b :: rest)

theorem pySum_ok_of_num : ∀ l : List AmountField, (∀ a ∈ l, ∃ q, a = .num q) →
    pySum l = .ok ((l.map amountVal).sum)
  | [], _ => by simp [pySum]
  | a :: rest, h => by
    obtain ⟨q, rfl⟩ := h a (List.mem_cons_self a rest)
    have hr := pySum_ok_of_num rest fun a ha => h a (List.mem_cons_of_mem _ ha)
    simp [pySum, hr, amountVal]

theorem pySum_num_of_ok : ∀ l : List AmountField, ∀ s : ℚ, pySum l = .ok s →
    (∀ a ∈ l, ∃ q, a = .num q) ∧ s = (l.map amountVal).sum
  | [], s, h => by
    simp [pySum] at h
    simp [h.symm]
  | .str s0 :: rest, s, h => by simp [pySum] at h
  | .num q :: rest, s, h => by
    simp only [pySum] at h
    cases hr : pySum rest with
    | error e => rw [hr] at h; exact absurd h (by simp)
    | ok s0 =>
      rw [hr] at h
      obtain ⟨hnum, hsum⟩ := pySum_num_of_ok rest s0 hr
      refine ⟨?_, ?_⟩
      · intro a ha
        rcases List.mem_cons.mp ha with rfl | ha
        · exact ⟨q, rfl⟩
        · exact hnum a ha
      · simp only [Except.ok.injEq] at h
        simp [← h, hsum, amountVal]

theorem pySum_error_of_str : ∀ l : List AmountField,
    (∃ a ∈ l, ∃ s0, a = .str s0) → pySum l = .error .typeError
  | [], h => by simp at h
  | .str s0 :: rest, _ => by simp [pySum]
  | .num q :: rest, h => by
    obtain ⟨a, ha, s0, rfl⟩ := h
    rcases List.mem_cons.mp ha with h1 | h1
    · exact absurd h1 (by simp)
    · have := pySum_error_of_str rest ⟨.str s0, h1, s0, rfl⟩
      simp [pySum, this]

theorem amount_variance_iff (amounts : List AmountField) (avg : ℚ)
    (hnum : ∀ a ∈ amounts, ∃ q, a = .num q) :
    amount_variance amounts avg = true ↔ ∀ a ∈ amounts, |amountVal a - avg| ≤ 1 := by
  simp only [amount_variance, List.all_eq_true]
  constructor
  · intro h a ha
    obtain ⟨q, hq⟩ := hnum a ha
    have h2 := h a ha
    rw [hq] at h2 ⊢
    simpa [amountVal] using h2
  · intro h a ha
    obtain ⟨q, hq⟩ := hnum a ha
    have h2 := h a ha
    rw [hq] at h2 ⊢
    simpa [amountVal] using h2

theorem interval_consistent_iff (l : List ℤ) :
    interval_consistent l = true ↔ ∀ i ∈ l, 25 ≤ i ∧ i ≤ 35 := by
  simp [interval_consistent, List.all_eq_true]

theorem amountsOf_sortTxns_map_sum (g : List Txn) :
    ((amountsOf (sortTxns g)).map amountVal).sum = (g.map fun t => amountVal t.amount).sum := by
  have h : ((sortTxns g).map fun t => amountVal t.amount).Perm
      (g.map fun t => amountVal t.amount) := (sortTxns_perm g).map _
  simpa [amountsOf, List.map_map, Function.comp] using h.sum_eq

theorem avg_eq_specMean (g : List Txn) :
    ((amountsOf (sortTxns g)).map amountVal).sum / ((amountsOf (sortTxns g)).length : ℚ) =
      specMean g := by
  rw [amountsOf_sortTxns_map_sum, amountsOf_length, sortTxns_length, specMean]

theorem mem_amountsOf_sortTxns (g : List Txn) (a : AmountField) :
    a ∈ amountsOf (sortTxns g) ↔ ∃ t ∈ g, t.amount = a := by
  simp [amountsOf, List.mem_map, sortTxns_mem]

theorem intervalsOf_sortTxns_ne_nil (g : List Txn) (h2 : 2 ≤ g.length) :
    intervalsOf (sortTxns g) ≠ [] := by
  have hl := intervalsOf_length (sortTxns g)
  rw [sortTxns_length] at hl
  intro hemp
  rw [hemp] at hl
  simp at hl
  omega

theorem processGroup_ok_some_elim (g : List Txn) (s : DetectedSubscription)
    (h : processGroup g = .ok (some s)) :
    2 ≤ g.length ∧ s = mkSubscription (sortTxns g) (specMean g) (specMeanInterval g) ∧
      specAmountStable g ∧ specIntervalRegular g := by
  by_cases hlen : g.length < 2
  · rw [processGroup, if_pos hlen] at h
    exact absurd h (by simp)
  · have h2 : 2 ≤ g.length := by omega
    rw [processGroup, if_neg hlen] at h
    cases hs : pySum (amountsOf (sortTxns g)) with
    | error e => rw [hs] at h; exact absurd h (by simp)
    | ok total =>
      rw [hs] at h
      simp only at h
      obtain ⟨hnum, htot⟩ := pySum_num_of_ok _ _ hs
      have hne := intervalsOf_sortTxns_ne_nil g h2
      rw [if_neg hne] at h
      have havg : total / ((amountsOf (sortTxns g)).length : ℚ) = specMean g := by
        rw [htot]; exact avg_eq_specMean g
      by_cases hb : (amount_variance (amountsOf (sortTxns g))
          (total / ((amountsOf (sortTxns g)).length : ℚ)) &&
          interval_consistent (intervalsOf (sortTxns g))) = true
      · rw [if_pos hb] at h
        obtain ⟨hvar, hcons⟩ := Bool.and_eq_true_iff.mp hb
        have hstab : specAmountStable g := by
          intro t ht
          have := (amount_variance_iff _ _ hnum).mp hvar t.amount
            ((mem_amountsOf_sortTxns g t.amount).mpr ⟨t, ht, rfl⟩)
          rwa [havg] at this
        have hreg : specIntervalRegular g := by
          intro i hi
          exact (interval_consistent_iff _).mp hcons i hi
        refine ⟨h2, ?_, hstab, hreg⟩
        have hss : some (mkSubscription (sortTxns g)
            (total / ((amountsOf (sortTxns g)).length : ℚ))
            ((((intervalsOf (sortTxns g)).map fun i : ℤ => (i : ℚ)).sum) /
              ((intervalsOf (sortTxns g)).length : ℚ))) = some s := by
          simpa using h
        rw [← Option.some_inj.mp hss, havg]
        rfl
      · rw [if_neg hb] at h
        exact absurd h (by simp)

theorem processGroup_some_iff (g : List Txn) (r : Option DetectedSubscription)
    (h : processGroup g = .ok r) :
    (∃ s, r = some s) ↔ 2 ≤ g.length ∧ specAmountStable g ∧ specIntervalRegular g := by
  constructor
  · rintro ⟨s, rfl⟩
    have := processGroup_ok_some_elim g s h
    exact ⟨this.1, this.2.2.1, this.2.2.2⟩
  · rintro ⟨h2, hstab, hreg⟩
    have hlen : ¬ g.length < 2 := by omega
    rw [processGroup, if_neg hlen] at h
    cases hs : pySum (amountsOf (sortTxns g)) with
    | error e => rw [hs] at h; exact absurd h (by simp)
    | ok total =>
      rw [hs] at h
      simp only at h
      obtain ⟨hnum, htot⟩ := pySum_num_of_ok _ _ hs
      have hne := intervalsOf_sortTxns_ne_nil g h2
      rw [if_neg hne] at h
      have havg : total / ((amountsOf (sortTxns g)).length : ℚ) = specMean g := by
        rw [htot]; exact avg_eq_specMean g
      have hvar : amount_variance (amountsOf (sortTxns g))
          (total / ((amountsOf (sortTxns g)).length : ℚ)) = true := by
        rw [havg]
        refine (amount_variance_iff _ _ hnum).mpr ?_
        intro a ha
        obtain ⟨t, ht, rfl⟩ := (mem_amountsOf_sortTxns g a).mp ha
        exact hstab t ht
      have hcons : interval_consistent (intervalsOf (sortTxns g)) = true :=
        (interval_consistent_iff _).mpr hreg
      rw [if_pos (by rw [hvar, hcons]; rfl)] at h
      exact ⟨_, by simpa using h.symm⟩

theorem processAll_ok_elim : ∀ (gs : List (String × List Txn)) (subs : List DetectedSubscription),
    processAll gs = .ok subs → ∀ kg ∈ gs, ∃ r, processGroup kg.2 = .ok r
  | [], _, _, kg, hmem => by simp at hmem
  | (k, g) :: rest, subs, h, kg, hmem => by
    rw [processAll] at h
    cases hpg : processGroup g with
    | error e => rw [hpg] at h; exact absurd h (by simp)
    | ok r =>
      rw [hpg] at h
      rcases List.mem_cons.mp hmem with rfl | hmem2
      · exact ⟨r, hpg⟩
      · cases r with
        | none => exact processAll_ok_elim rest subs h kg hmem2
        | some s =>
          simp only at h
          cases hrest : processAll rest with
          | error e => rw [hrest] at h; exact absurd h (by simp)
          | ok subs2 => exact processAll_ok_elim rest subs2 hrest kg hmem2

theorem processAll_mem_of : ∀ (gs : List (String × List Txn)) (subs : List DetectedSubscription),
    processAll gs = .ok subs → ∀ kg ∈ gs, ∀ s, processGroup kg.2 = .ok (some s) → s ∈ subs
  | [], _, _, kg, hmem, _, _ => by simp at hmem
  | (k, g) :: rest, subs, h, kg, hmem, s, hpg => by
    rw [processAll] at h
    rcases List.mem_cons.mp hmem with rfl | hmem2
    · rw [hpg] at h
      simp only at h
      cases hrest : processAll rest with
      | error e => rw [hrest] at h; exact absurd h (by simp)
      | ok subs2 =>
        rw [hrest] at h
        have : s :: subs2 = subs := by simpa using h
        rw [← this]
        exact List.mem_cons_self s subs2
    · cases hpg2 : processGroup g with
      | error e => rw [hpg2] at h; exact absurd h (by simp)
      | ok r =>
        rw [hpg2] at h
        cases r with
        | none => exact processAll_mem_of rest subs h kg hmem2 s hpg
        | some s2 =>
          simp only at h
          cases hrest : processAll rest with
          | error e => rw [hrest] at h; exact absurd h (by simp)
          | ok subs2 =>
            rw [hrest] at h
            have hsubs : s2 :: subs2 = subs := by simpa using h
            have := processAll_mem_of rest subs2 hrest kg hmem2 s hpg
            rw [← hsubs]
            exact List.mem_cons_of_mem s2 this

theorem detect_subscriptions_eq (df : List RawTransaction) :
    detect_subscriptions df =
      match merchantGroupsOf df with
      | .error e => .error e
      | .ok gs => processAll gs := by
  rw [detect_subscriptions, detect_with_frame, merchantGroupsOf]
  cases h : to_datetime_col df with
  | error e => rfl
  | ok parsed => rfl

theorem sorted_headD_min (l : List Txn) (d : Txn) (hs : List.Sorted Txn.le l)
    (hne : l ≠ []) : ∀ u ∈ l, (l.headD d).date ≤ u.date := by
  cases l with
  | nil => exact absurd rfl hne
  | cons a rest =>
    intro u hu
    rcases List.mem_cons.mp hu with rfl | hu2
    · exact le_refl _
    · exact List.rel_of_sorted_cons hs u hu2

theorem sorted_getLastD_max : ∀ (l : List Txn) (d : Txn), List.Sorted Txn.le l →
    ∀ u ∈ l, u.date ≤ (l.getLastD d).date
  | [], _, _, u, hu => by simp at hu
  | [a], _, _, u, hu => by
    rcases List.mem_singleton.mp hu with rfl
    exact le_refl _
  | a :: b :: rest, d, hs, u, hu => by
    have htail := sorted_getLastD_max (b :: rest) d hs.of_cons
    have hlast : ((a :: b :: rest).getLastD d) = ((b :: rest).getLastD d) := by
      simp [List.getLastD_cons]
    rw [hlast]
    rcases List.mem_cons.mp hu with rfl | hu2
    · calc u.date ≤ b.date := List.rel_of_sorted_cons hs b (List.mem_cons_self b rest)
        _ ≤ ((b :: rest).getLastD d).date := htail b (List.mem_cons_self b rest)
    · exact htail u hu2

theorem mean_int_bounds (l : List ℤ) (hne : l ≠ [])
    (hbd : ∀ i ∈ l, 25 ≤ i ∧ i ≤ 35) :
    25 ≤ (l.map fun i : ℤ => (i : ℚ)).sum / (l.length : ℚ) ∧
      (l.map fun i : ℤ => (i : ℚ)).sum / (l.length : ℚ) ≤ 35 := by
  have hpos : (0 : ℚ) < (l.length : ℚ) := by
    have : 0 < l.length := List.length_pos.mpr hne
    exact_mod_cast this
  have hqlen : (l.map fun i : ℤ => (i : ℚ)).length = l.length := by simp
  have hlow : (l.length : ℚ) * 25 ≤ (l.map fun i : ℤ => (i : ℚ)).sum := by
    have := List.card_nsmul_le_sum (l := l.map fun i : ℤ => (i : ℚ)) (n := (25 : ℚ)) ?_
    · rwa [hqlen, nsmul_eq_mul] at this
    · intro x hx
      obtain ⟨i, hi, rfl⟩ := List.mem_map.mp hx
      exact_mod_cast (hbd i hi).1
  have hhigh : (l.map fun i : ℤ => (i : ℚ)).sum ≤ (l.length : ℚ) * 35 := by
    have := List.sum_le_card_nsmul (l := l.map fun i : ℤ => (i : ℚ)) (n := (35 : ℚ)) ?_
    · rwa [hqlen, nsmul_eq_mul] at this
    · intro x hx
      obtain ⟨i, hi, rfl⟩ := List.mem_map.mp hx
      exact_mod_cast (hbd i hi).2
  constructor
  · rw [le_div_iff₀ hpos]
    linarith
  · rw [div_le_iff₀ hpos]
    linarith

theorem pyInt_eq_floor (q : ℚ) (h : 0 ≤ q) : pyInt q = ⌊q⌋ := if_pos h

/-- The parsed form of a row whose date parses (the value `pd.to_datetime`
writes back into the frame). -/
def parseRowD (t : RawTransaction) : PTxn :=
  ⟨(to_datetime t.date).getD 0, t.description, t.amount, t.category⟩

theorem to_datetime_col_of_isSome : ∀ df : List RawTransaction,
    (∀ t ∈ df, (to_datetime t.date).isSome) → to_datetime_col df = .ok (df.map parseRowD)
  | [], _ => rfl
  | t :: rest, h => by
    have ht := h t (List.mem_cons_self t rest)
    obtain ⟨d, hd⟩ := Option.isSome_iff_exists.mp ht
    have hrest := to_datetime_col_of_isSome rest fun u hu => h u (List.mem_cons_of_mem _ hu)
    rw [to_datetime_col, hd, hrest]
    simp [parseRowD, hd]

theorem to_datetime_col_error_of_bad : ∀ df : List RawTransaction,
    (∃ t ∈ df, to_datetime t.date = none) →
    ∃ s, to_datetime_col df = .error (.dateParseError s)
  | [], h => by simp at h
  | t :: rest, h => by
    cases hd : to_datetime t.date with
    | none => exact ⟨dateRawString t.date, by rw [to_datetime_col, hd]⟩
    | some d =>
      obtain ⟨u, hu, hbad⟩ := h
      rcases List.mem_cons.mp hu with rfl | hu2
      · rw [hd] at hbad; exact absurd hbad (by simp)
      · obtain ⟨s, hs⟩ := to_datetime_col_error_of_bad rest ⟨u, hu2, hbad⟩
        exact ⟨s, by rw [to_datetime_col, hd, hs]⟩

/-- Two sorted lists of parsed rows that are permutations of each other
and have pairwise-distinct dates are equal. -/
theorem eq_of_perm_sorted_nodupDates : ∀ (l1 l2 : List PTxn), l1.Perm l2 →
    List.Sorted PTxn.le l1 → List.Sorted PTxn.le l2 →
    (l1.map PTxn.date).Nodup → l1 = l2
  | [], l2, hp, _, _, _ => hp.nil_eq
  | a :: t1, [], hp, _, _, _ => absurd hp.symm.nil_eq (by simp)
  | a :: t1, b :: t2, hp, hs1, hs2, hnd => by
    have hab : a = b := by
      have ha2 : a ∈ b :: t2 := hp.mem_iff.mp (List.mem_cons_self a t1)
      have hb1 : b ∈ a :: t1 := hp.mem_iff.mpr (List.mem_cons_self b t2)
      rcases List.mem_cons.mp ha2 with h1 | h1
      · exact h1
      rcases List.mem_cons.mp hb1 with h2 | h2
      · exact h2.symm
      have hd1 : a.date ≤ b.date := List.rel_of_sorted_cons hs1 b h2
      have hd2 : b.date ≤ a.date := List.rel_of_sorted_cons hs2 a h1
      have heq : a.date = b.date := le_antisymm hd1 hd2
      exfalso
      have hnotin : a.date ∉ t1.map PTxn.date := (List.nodup_cons.mp hnd).1
      exact hnotin (heq ▸ List.mem_map_of_mem PTxn.date h2)
    subst hab
    have htails := hp.cons_inv
    have hrec := eq_of_perm_sorted_nodupDates t1 t2 htails hs1.of_cons hs2.of_cons
      (List.nodup_cons.mp hnd).2
    rw [hrec]

theorem sort_values_eq_of_perm (p1 p2 : List PTxn) (hp : p1.Perm p2)
    (hnd : (p1.map PTxn.date).Nodup) : sort_values p1 = sort_values p2 := by
  refine eq_of_perm_sorted_nodupDates _ _ ?_ ?_ ?_ ?_
  · exact (List.perm_insertionSort PTxn.le p1).trans
      (hp.trans (List.perm_insertionSort PTxn.le p2).symm)
  · exact List.sorted_insertionSort PTxn.le p1
  · exact List.sorted_insertionSort PTxn.le p2
  · have hperm : ((List.insertionSort PTxn.le p1).map PTxn.date).Perm (p1.map PTxn.date) :=
      (List.perm_insertionSort PTxn.le p1).map _
    exact hperm.nodup_iff.mpr hnd

/-! ## Concrete inputs used by witnesses and counterexamples -/

def rowNetflixD0 : RawTransaction := ⟨.raw 0 "2024-01-01", "Netflix", .num 10, "Entertainment"⟩

def rowSpotifyD0 : RawTransaction := ⟨.raw 0 "2024-01-01", "Spotify", .num 5, "Music"⟩

def rowNetflixD30 : RawTransaction := ⟨.raw 30 "2024-01-31", "Netflix", .num 10, "Entertainment"⟩

def rowSpotifyD30 : RawTransaction := ⟨.raw 30 "2024-01-31", "Spotify", .num 5, "Music"⟩

def rowGymBadAmount : RawTransaction := ⟨.raw 5 "2024-01-06", "Gym", .str "abc", "Fitness"⟩

def rowEmptyDescription : RawTransaction := ⟨.raw 0 "2024-01-01", "", .num 12, "Misc"⟩

def rowBadDate : RawTransaction := ⟨.bad "not-a-date", "Hulu", .num 8, "Entertainment"⟩

def groupNetflix : List Txn :=
  [⟨0, .num 10, "Netflix", "Entertainment"⟩, ⟨30, .num 10, "Netflix", "Entertainment"⟩]

def groupGymMixed : List Txn := [⟨0, .str "abc", "Gym", "Fitness"⟩, ⟨30, .num 10, "Gym", "Fitness"⟩]

def subNetflix : DetectedSubscription := ⟨"Netflix", 10, 30, "Entertainment", 2, 30, 120, 10⟩

def subSpotify : DetectedSubscription := ⟨"Spotify", 5, 30, "Music", 2, 30, 60, 5⟩

theorem pySplit_Netflix : pySplit "Netflix" = ["Netflix"] := rfl

theorem pySplit_Spotify : pySplit "Spotify" = ["Spotify"] := rfl

theorem pySplit_Gym : pySplit "Gym" = ["Gym"] := rfl

theorem evalProcessGroupNetflix : processGroup groupNetflix = .ok (some subNetflix) := by
  norm_num [processGroup, groupNetflix, subNetflix, sortTxns, amountsOf, intervalsOf,
    pySum, pyInt, amount_variance, interval_consistent, mkSubscription,
    List.insertionSort, List.orderedInsert, Txn.le, default_txn]

theorem evalDetectNetflixPair :
    detect_subscriptions [rowNetflixD0, rowNetflixD30] = .ok [subNetflix] := by
  norm_num [detect_subscriptions, detect_with_frame, to_datetime_col, to_datetime,
    rowNetflixD0, rowNetflixD30, sort_values, List.insertionSort, List.orderedInsert,
    PTxn.le, merchant_groups, pySplit_Netflix, insertGroup, rowTxn, processAll,
    processGroup, sortTxns, Txn.le, amountsOf, intervalsOf, pySum, pyInt,
    amount_variance, interval_consistent, mkSubscription, default_txn, subNetflix]

theorem evalDetectNS :
    detect_subscriptions [rowNetflixD0, rowSpotifyD0, rowNetflixD30, rowSpotifyD30] =
      .ok [subNetflix, subSpotify] := by
  norm_num [detect_subscriptions, detect_with_frame, to_datetime_col, to_datetime,
    rowNetflixD0, rowSpotifyD0, rowNetflixD30, rowSpotifyD30, sort_values,
    List.insertionSort, List.orderedInsert, PTxn.le, merchant_groups, pySplit_Netflix,
    pySplit_Spotify, insertGroup, rowTxn, processAll, processGroup, sortTxns, Txn.le,
    amountsOf, intervalsOf, pySum, pyInt, amount_variance, interval_consistent,
    mkSubscription, default_txn, subNetflix, subSpotify]

theorem evalDetectSN :
    detect_subscriptions [rowSpotifyD0, rowNetflixD0, rowSpotifyD30, rowNetflixD30] =
      .ok [subSpotify, subNetflix] := by
  norm_num [detect_subscriptions, detect_with_frame, to_datetime_col, to_datetime,
    rowNetflixD0, rowSpotifyD0, rowNetflixD30, rowSpotifyD30, sort_values,
    List.insertionSort, List.orderedInsert, PTxn.le, merchant_groups, pySplit_Netflix,
    pySplit_Spotify, insertGroup, rowTxn, processAll, processGroup, sortTxns, Txn.le,
    amountsOf, intervalsOf, pySum, pyInt, amount_variance, interval_consistent,
    mkSubscription, default_txn, subNetflix, subSpotify]

theorem evalDetectGym :
    detect_subscriptions [rowGymBadAmount, rowNetflixD0, rowNetflixD30] = .ok [subNetflix] := by
  norm_num [detect_subscriptions, detect_with_frame, to_datetime_col, to_datetime,
    rowGymBadAmount, rowNetflixD0, rowNetflixD30, sort_values, List.insertionSort,
    List.orderedInsert, PTxn.le, merchant_groups, pySplit_Netflix, pySplit_Gym,
    insertGroup, rowTxn, processAll, processGroup, sortTxns, Txn.le, amountsOf,
    intervalsOf, pySum, pyInt, amount_variance, interval_consistent, mkSubscription,
    default_txn, subNetflix]

/-! ## Claims -/

/-- C1: for every input whose merchant grouping and detection both
succeed, `detect_subscriptions` emits a record for a merchant group if
and only if the group has at least 2 transactions, every amount is
within 1.00 of the group's mean, and every consecutive date-sorted
interval lies in [25, 35]; in particular no record is emitted for a
group with fewer than 2 transactions. -/
theorem claim1_emit_iff (df : List RawTransaction) (gs : List (String × List Txn))
    (subs : List DetectedSubscription) (kg : String × List Txn)
    (hg : merchantGroupsOf df = .ok gs) (hd : detect_subscriptions df = .ok subs)
    (hmem : kg ∈ gs) :
    (∃ s ∈ subs, processGroup kg.2 = .ok (some s)) ↔
      2 ≤ kg.2.length ∧ specAmountStable kg.2 ∧ specIntervalRegular kg.2 := by
  have hall : processAll gs = .ok subs := by
    have hde := detect_subscriptions_eq df
    rw [hg] at hde
    rw [hd] at hde
    exact hde.symm
  constructor
  · rintro ⟨s, _, hps⟩
    exact (processGroup_some_iff kg.2 (some s) hps).mp ⟨s, rfl⟩
  · intro hcond
    obtain ⟨r, hr⟩ := processAll_ok_elim gs subs hall kg hmem
    obtain ⟨s, rfl⟩ := (processGroup_some_iff kg.2 r hr).mpr hcond
    exact ⟨s, processAll_mem_of gs subs hall kg hmem s hr, hr⟩

theorem claim1_witness :
    (∃ s ∈ [subNetflix], processGroup ("Netflix", groupNetflix).2 = .ok (some s)) ↔
      2 ≤ ("Netflix", groupNetflix).2.length ∧ specAmountStable ("Netflix", groupNetflix).2 ∧
        specIntervalRegular ("Netflix", groupNetflix).2 :=
  claim1_emit_iff [rowNetflixD0, rowNetflixD30] [("Netflix", groupNetflix)] [subNetflix]
    ("Netflix", groupNetflix) rfl evalDetectNetflixPair (List.mem_singleton.mpr rfl)

/-- C6: every emitted record has `annualCost = monthlyCost * 12`
exactly (the numeric values of lines 78 and 83). -/
theorem claim6_annual_cost (g : List Txn) (s : DetectedSubscription)
    (h : processGroup g = .ok (some s)) : s.Annual_Cost = s.Monthly_Cost * 12 := by
  obtain ⟨-, rfl, -, -⟩ := processGroup_ok_some_elim g s h
  rfl

theorem claim6_witness : subNetflix.Annual_Cost = subNetflix.Monthly_Cost * 12 :=
  claim6_annual_cost groupNetflix subNetflix evalProcessGroupNetflix

/-- C9: for every group of at least 2 transactions, both denominators of
the detector's arithmetic — the amount count behind `avg_amount`
(line 68) and the interval count behind `avg_interval` (line 72) — are
positive, so no division by zero occurs. -/
theorem claim9_positive_denominators (g : List Txn) (h2 : 2 ≤ g.length) :
    0 < (amountsOf (sortTxns g)).length ∧ 0 < (intervalsOf (sortTxns g)).length := by
  constructor
  · rw [amountsOf_length, sortTxns_length]
    omega
  · rw [intervalsOf_length, sortTxns_length]
    omega

theorem claim9_witness :
    0 < (amountsOf (sortTxns groupNetflix)).length ∧
      0 < (intervalsOf (sortTxns groupNetflix)).length :=
  claim9_positive_denominators groupNetflix (by decide)

/-- C10: every emitted record's `frequencyDays` lies in [25, 35]: all
intervals of the group are in [25, 35], hence so is their mean, hence so
is its floor. -/
theorem claim10_frequency_bounds (g : List Txn) (s : DetectedSubscription)
    (h : processGroup g = .ok (some s)) : 25 ≤ s.Frequency ∧ s.Frequency ≤ 35 := by
  obtain ⟨h2, rfl, -, hreg⟩ := processGroup_ok_some_elim g s h
  have hne := intervalsOf_sortTxns_ne_nil g h2
  have hmb := mean_int_bounds (intervalsOf (sortTxns g)) hne fun i hi => hreg i hi
  have hq : (0 : ℚ) ≤ specMeanInterval g := le_trans (by norm_num) hmb.1
  show 25 ≤ pyInt (specMeanInterval g) ∧ pyInt (specMeanInterval g) ≤ 35
  rw [pyInt_eq_floor _ hq]
  constructor
  · exact Int.le_floor.mpr (by exact_mod_cast hmb.1)
  · have hfl := (Int.floor_le (specMeanInterval g)).trans hmb.2
    exact_mod_cast hfl

theorem claim10_witness : 25 ≤ subNetflix.Frequency ∧ subNetflix.Frequency ≤ 35 :=
  claim10_frequency_bounds groupNetflix subNetflix evalProcessGroupNetflix

theorem headD_mem (l : List Txn) (d : Txn) (hne : l ≠ []) : l.headD d ∈ l := by
  cases l with
  | nil => exact absurd rfl hne
  | cons a rest => exact List.mem_cons_self a rest

theorem getLastD_mem : ∀ (l : List Txn) (d : Txn), l ≠ [] → l.getLastD d ∈ l
  | [], _, hne => absurd rfl hne
  | [a], _, _ => List.mem_singleton.mpr rfl
  | a :: b :: rest, d, _ => by
    have htail := getLastD_mem (b :: rest) d (by simp)
    have hlast : ((a :: b :: rest).getLastD d) = ((b :: rest).getLastD d) := by
      simp [List.getLastD_cons]
    rw [hlast]
    exact List.mem_cons_of_mem a htail

theorem specMeanInterval_nonneg (g : List Txn) (hreg : specIntervalRegular g) :
    (0 : ℚ) ≤ specMeanInterval g := by
  apply div_nonneg
  · apply List.sum_nonneg
    intro x hx
    obtain ⟨i, hi, rfl⟩ := List.mem_map.mp hx
    have := (hreg i hi).1
    have hge : (0 : ℤ) ≤ i := by omega
    exact_mod_cast hge
  · exact_mod_cast Nat.zero_le _

/-- C7: for every emitted record, `serviceName` and `category` come from
a date-minimal transaction of the group (the head of the date-sorted
group), `lastChargeDate` is a date-maximal transaction's date,
`timesCharged` is the group size, and `frequencyDays` is the floor of
the mean of the group's consecutive day-intervals. -/
theorem claim7_fields (g : List Txn) (s : DetectedSubscription)
    (h : processGroup g = .ok (some s)) :
    ∃ t ∈ g, (∀ u ∈ g, t.date ≤ u.date) ∧ s.Service = t.full_description ∧
      s.Category = t.category ∧
      (∃ u ∈ g, (∀ v ∈ g, v.date ≤ u.date) ∧ s.Last_Charge = u.date) ∧
      s.Times_Charged = g.length ∧ s.Frequency = ⌊specMeanInterval g⌋ := by
  obtain ⟨h2, rfl, -, hreg⟩ := processGroup_ok_some_elim g s h
  have hne : sortTxns g ≠ [] := by
    intro hemp
    have hl := sortTxns_length g
    rw [hemp] at hl
    simp at hl
    omega
  refine ⟨(sortTxns g).headD default_txn, ?_, ?_, rfl, rfl, ?_, ?_, ?_⟩
  · exact (sortTxns_mem g _).mp (headD_mem _ _ hne)
  · intro u hu
    exact sorted_headD_min (sortTxns g) default_txn (sortTxns_sorted g) hne u
      ((sortTxns_mem g u).mpr hu)
  · refine ⟨(sortTxns g).getLastD default_txn, ?_, ?_, rfl⟩
    · exact (sortTxns_mem g _).mp (getLastD_mem _ _ hne)
    · intro v hv
      exact sorted_getLastD_max (sortTxns g) default_txn (sortTxns_sorted g) v
        ((sortTxns_mem g v).mpr hv)
  · exact sortTxns_length g
  · exact pyInt_eq_floor _ (specMeanInterval_nonneg g hreg)

theorem claim7_witness :
    ∃ t ∈ groupNetflix, (∀ u ∈ groupNetflix, t.date ≤ u.date) ∧
      subNetflix.Service = t.full_description ∧ subNetflix.Category = t.category ∧
      (∃ u ∈ groupNetflix, (∀ v ∈ groupNetflix, v.date ≤ u.date) ∧
        subNetflix.Last_Charge = u.date) ∧
      subNetflix.Times_Charged = groupNetflix.length ∧
      subNetflix.Frequency = ⌊specMeanInterval groupNetflix⌋ :=
  claim7_fields groupNetflix subNetflix evalProcessGroupNetflix

/-- C8: the empty input is not an error: `detect_subscriptions` returns
the empty subscription list, not a `DetectError`. -/
theorem claim8_empty_input : detect_subscriptions [] = .ok [] := rfl

/-- C4 (code behaviour at the failing input): a transaction whose
description is empty or whitespace-only makes `detect_subscriptions`
raise the IndexError of `row['description'].split()[0]` (line 42), even
when such transactions would form a group of 2; no empty-key bucket is
formed. -/
theorem claim4_code_behavior :
    detect_subscriptions [rowEmptyDescription] = .error .indexError ∧
    detect_subscriptions [⟨.raw 0 "2024-01-01", " ", .num 3, "Misc"⟩,
      ⟨.raw 30 "2024-01-31", " ", .num 3, "Misc"⟩] = .error .indexError :=
  ⟨rfl, rfl⟩

/-- C2 (counterexample): an input containing a non-numeric amount
(`rowGymBadAmount`, amount "abc") on which `detect_subscriptions` does
not fail but returns a partial subscription list from the remaining
groups — contradicting the claim that any non-numeric amount fails the
whole batch. -/
theorem claim2_counterexample :
    (∃ t ∈ [rowGymBadAmount, rowNetflixD0, rowNetflixD30], ∃ s0, t.amount = .str s0) ∧
    detect_subscriptions [rowGymBadAmount, rowNetflixD0, rowNetflixD30] = .ok [subNetflix] :=
  ⟨⟨rowGymBadAmount, List.mem_cons_self _ _, "abc", rfl⟩, evalDetectGym⟩

/-- C2 (amended): an unparseable date anywhere fails the whole batch
with an error naming the offending value; a non-numeric amount fails
the batch (with a TypeError that names no row) only when its merchant
group has at least 2 transactions; a group with fewer than 2
transactions — malformed amount or not — is skipped without error. -/
theorem claim2_amended (df : List RawTransaction) (g : List Txn) :
    ((∃ t ∈ df, to_datetime t.date = none) →
      ∃ s, detect_subscriptions df = .error (.dateParseError s)) ∧
    (2 ≤ g.length → (∃ t ∈ g, ∃ s0, t.amount = .str s0) →
      processGroup g = .error .typeError) ∧
    (g.length < 2 → processGroup g = .ok none) := by
  refine ⟨?_, ?_, ?_⟩
  · intro hbad
    obtain ⟨s, hs⟩ := to_datetime_col_error_of_bad df hbad
    exact ⟨s, by rw [detect_subscriptions, detect_with_frame, hs]⟩
  · intro h2 hstr
    have hlen : ¬ g.length < 2 := by omega
    rw [processGroup, if_neg hlen]
    have hsum : pySum (amountsOf (sortTxns g)) = .error .typeError := by
      apply pySum_error_of_str
      obtain ⟨t, ht, s0, hts⟩ := hstr
      exact ⟨t.amount, (mem_amountsOf_sortTxns g t.amount).mpr ⟨t, ht, rfl⟩, s0, hts⟩
    rw [hsum]
  · intro hlt
    rw [processGroup, if_pos hlt]

theorem claim2_amended_witness :
    (∃ s, detect_subscriptions [rowBadDate] = .error (.dateParseError s)) ∧
    processGroup groupGymMixed = .error .typeError ∧
    processGroup [⟨0, .str "abc", "Gym", "Fitness"⟩] = .ok none :=
  ⟨(claim2_amended [rowBadDate] groupGymMixed).1 ⟨rowBadDate, List.mem_cons_self _ _, rfl⟩,
   (claim2_amended [rowBadDate] groupGymMixed).2.1 (by decide)
     ⟨⟨0, .str "abc", "Gym", "Fitness"⟩, List.mem_cons_self _ _, "abc", rfl⟩,
   (claim2_amended [rowBadDate] [⟨0, .str "abc", "Gym", "Fitness"⟩]).2.2 (by decide)⟩

/-- C3 (counterexample): after `detect_subscriptions` runs on a
single-row input whose date is a raw string, the caller's collection is
changed — line 34 wrote the parsed timestamp into the frame — so the
claim that the input is always unchanged is false. -/
theorem claim3_counterexample : (detect_with_frame [rowNetflixD0]).1 ≠ [rowNetflixD0] := by
  have heval : (detect_with_frame [rowNetflixD0]).1 =
      [⟨.ts 0, "Netflix", .num 10, "Entertainment"⟩] := rfl
  rw [heval]
  intro h
  have hrow : (⟨.ts 0, "Netflix", .num 10, "Entertainment"⟩ : RawTransaction) =
      rowNetflixD0 := by
    injection h
  have hdate : DateField.ts 0 = DateField.raw 0 "2024-01-01" :=
    congrArg RawTransaction.date hrow
  exact absurd hdate (by simp)

/-- C3 (amended): `detect_subscriptions` mutates the caller's collection
in exactly one way: when the whole date column parses, each row's date
cell is replaced by its parsed timestamp, with row order and all other
fields unchanged; when some date fails to parse, the frame is untouched
(the sort of line 35 always operates on a local copy). -/
theorem claim3_amended (df : List RawTransaction) :
    ((∀ t ∈ df, (to_datetime t.date).isSome) →
      (detect_with_frame df).1 = df.map fun t =>
        ⟨.ts ((to_datetime t.date).getD 0), t.description, t.amount, t.category⟩) ∧
    ((∃ t ∈ df, to_datetime t.date = none) → (detect_with_frame df).1 = df) := by
  constructor
  · intro hwf
    rw [detect_with_frame, to_datetime_col_of_isSome df hwf]
    simp only [List.map_map]
    rfl
  · intro hbad
    obtain ⟨s, hs⟩ := to_datetime_col_error_of_bad df hbad
    rw [detect_with_frame, hs]

theorem claim3_amended_witness :
    (detect_with_frame [rowNetflixD0]).1 = [rowNetflixD0].map (fun t =>
      ⟨.ts ((to_datetime t.date).getD 0), t.description, t.amount, t.category⟩) ∧
    (detect_with_frame [rowBadDate]).1 = [rowBadDate] :=
  ⟨(claim3_amended [rowNetflixD0]).1 (by decide),
   (claim3_amended [rowBadDate]).2 ⟨rowBadDate, List.mem_cons_self _ _, rfl⟩⟩

/-- C5 (counterexample): two inputs that are permutations of each other
(two tied-date pairs) on which `detect_subscriptions` returns the same
records in a different order — the stable sort keeps tied dates in
input order, so first-seen merchant order, and hence output order,
depends on the initial order. -/
theorem claim5_counterexample :
    ([rowNetflixD0, rowSpotifyD0, rowNetflixD30, rowSpotifyD30] : List RawTransaction).Perm
      [rowSpotifyD0, rowNetflixD0, rowSpotifyD30, rowNetflixD30] ∧
    detect_subscriptions [rowNetflixD0, rowSpotifyD0, rowNetflixD30, rowSpotifyD30] ≠
      detect_subscriptions [rowSpotifyD0, rowNetflixD0, rowSpotifyD30, rowNetflixD30] := by
  constructor
  · exact (List.Perm.swap rowSpotifyD0 rowNetflixD0 _).trans
      (((List.Perm.swap rowSpotifyD30 rowNetflixD30 []).cons rowNetflixD0).cons rowSpotifyD0)
  · rw [evalDetectNS, evalDetectSN]
    intro h
    have hlist : [subNetflix, subSpotify] = [subSpotify, subNetflix] := by
      simpa using h
    have hhead : subNetflix = subSpotify := by injection hlist
    have hserv : subNetflix.Service = subSpotify.Service :=
      congrArg DetectedSubscription.Service hhead
    exact absurd hserv (by decide)

/-- C5 (amended): `detect_subscriptions` is insensitive to the initial
order of its input whenever all dates parse and no two transactions
share the same date; permuted inputs then produce identical output,
ordering included. -/
theorem claim5_amended (l1 l2 : List RawTransaction) (hp : l1.Perm l2)
    (hwf : ∀ t ∈ l1, (to_datetime t.date).isSome)
    (hnd : (l1.map fun t => to_datetime t.date).Nodup) :
    detect_subscriptions l1 = detect_subscriptions l2 := by
  have hwf2 : ∀ t ∈ l2, (to_datetime t.date).isSome := fun t ht => hwf t (hp.mem_iff.mpr ht)
  have h1 := to_datetime_col_of_isSome l1 hwf
  have h2 := to_datetime_col_of_isSome l2 hwf2
  have hpp : (l1.map parseRowD).Perm (l2.map parseRowD) := hp.map _
  have hndp : ((l1.map parseRowD).map PTxn.date).Nodup := by
    rw [List.map_map]
    have hcomp : (PTxn.date ∘ parseRowD) =
        (fun o : Option ℤ => o.getD 0) ∘ (fun t : RawTransaction => to_datetime t.date) := rfl
    rw [hcomp, ← List.map_map]
    refine hnd.map_on ?_
    intro x hx y hy hxy
    obtain ⟨tx, htx, hxe⟩ := List.mem_map.mp hx
    obtain ⟨ty, hty, hye⟩ := List.mem_map.mp hy
    subst hxe
    subst hye
    obtain ⟨dx, hdx⟩ := Option.isSome_iff_exists.mp (hwf tx htx)
    obtain ⟨dy, hdy⟩ := Option.isSome_iff_exists.mp (hwf ty hty)
    rw [hdx, hdy] at hxy ⊢
    simpa using hxy
  have hsort := sort_values_eq_of_perm _ _ hpp hndp
  rw [detect_subscriptions_eq, detect_subscriptions_eq, merchantGroupsOf, merchantGroupsOf,
    h1, h2]
  simp only
  rw [hsort]

theorem claim5_amended_witness :
    detect_subscriptions [rowNetflixD0, rowNetflixD30] =
      detect_subscriptions [rowNetflixD30, rowNetflixD0] :=
  claim5_amended [rowNetflixD0, rowNetflixD30] [rowNetflixD30, rowNetflixD0]
    (List.Perm.swap rowNetflixD30 rowNetflixD0 []) (by decide) (by decide)
